import Mathlib

/-!
# Verification of `src/data_prep.py` (content-platform-user-analysis)

Shallow embedding of the session-event data-preparation pipeline:
`load_sessions`, `flatten_events`, `build_session_features`.

Tables are modelled as Lean lists of rows; the pandas `groupby("session")`
aggregation is modelled by taking the distinct session identifiers in
ascending order (pandas groups sort by key by default) and counting over
each group.  File reading and `json.loads` are modelled by passing the
file's lines and an abstract parse function explicitly.
-/

namespace DataPrep

/-- One event of a session: `{aid, ts, type}` (see `flatten_events`'s docstring). -/
structure Event where
  aid : Int
  ts : Int
  type : String
deriving Repr, DecidableEq

/-- One session record: `{"session": int, "events": [...]}` as parsed by
`load_sessions` from one line of the input file. -/
structure SessionRec where
  session : Int
  events : List Event
deriving Repr, DecidableEq

/-- One row of the flat event table built by `flatten_events`:
columns `session, aid, ts, type`. -/
structure EventRow where
  session : Int
  aid : Int
  ts : Int
  type : String
deriving Repr, DecidableEq

/-- One row of the session feature table built by `build_session_features`:
columns `total_events, click_cnt, cart_cnt, order_cnt, converted`. -/
structure FeatureRow where
  total_events : Nat
  click_cnt : Nat
  cart_cnt : Nat
  order_cnt : Nat
  converted : Bool
deriving Repr, DecidableEq

/-- Embeds `flatten_events`: flatten nested session/events into an event-level
table with columns `session, aid, ts, type` (the nested `for s in sessions`
/ `for e in s["events"]` loop of the source, appending one row per event). -/
def flatten_events (sessions : List SessionRec) : List EventRow :=
  sessions.flatMap fun s =>
    s.events.map fun e => { session := s.session, aid := e.aid, ts := e.ts, type := e.type }

/-- The group of event rows belonging to session `sid`
(the rows `groupby("session")` assigns to that group). -/
def sessionGroup (rows : List EventRow) (sid : Int) : List EventRow :=
  rows.filter fun r => r.session == sid

/-- The distinct session identifiers of the event table in ascending order:
the group keys produced by `groupby("session")` (pandas sorts keys). -/
def sessionKeys (rows : List EventRow) : List Int :=
  List.insertionSort (· ≤ ·) (rows.map EventRow.session).dedup

/-- The aggregated feature row for one session group, per the `agg` call:
`total_events` counts the group's rows, `click_cnt`/`cart_cnt`/`order_cnt`
count rows whose `type` equals `"clicks"`/`"carts"`/`"orders"`, and
`converted = order_cnt > 0`. -/
def featuresOf (rows : List EventRow) (sid : Int) : FeatureRow :=
  let g := sessionGroup rows sid
  let orders := (g.filter fun r => r.type == "orders").length
  { total_events := g.length
    click_cnt := (g.filter fun r => r.type == "clicks").length
    cart_cnt := (g.filter fun r => r.type == "carts").length
    order_cnt := orders
    converted := decide (0 < orders) }

/-- Embeds `build_session_features`: raise `ValueError` on an empty event table,
otherwise group by `session` and aggregate.  The result is the list of
(session, feature-row) pairs, one per distinct session, keyed ascending. -/
def build_session_features (event_df : List EventRow) :
    Except String (List (Int × FeatureRow)) :=
  if event_df.isEmpty then
    .error "event_df is empty. Check input sessions or file path."
  else
    .ok ((sessionKeys event_df).map fun sid => (sid, featuresOf event_df sid))

/-- Errors `load_sessions` can raise: `path.open` raising `FileNotFoundError`
(or another OS error), and `json.loads` raising a decode error. -/
inductive LoadError where
  | ioError (msg : String)
  | parseError (msg : String)
deriving Repr, DecidableEq

/-- The loader's read loop over the first lines: parse each line in order
with `json.loads` (abstracted as `parse`), aborting on the first malformed
line with no partial result. -/
def parseLines (parse : String → Option SessionRec) : List String → Option (List SessionRec)
  | [] => some []
  | l :: ls =>
    match parse l with
    | none => none
    | some r => (parseLines parse ls).map (r :: ·)

/-- Embeds `load_sessions`: open the file (modelled as `Option (List String)`,
`none` = unreadable path), then parse the first `n` lines (`if i >= n:
break` stops the enumeration before line `n`), returning the parsed
records in file order. -/
def load_sessions (file : Option (List String)) (parse : String → Option SessionRec)
    (n : Nat) : Except LoadError (List SessionRec) :=
  match file with
  | none => .error (.ioError "No such file or directory")
  | some lines =>
    match parseLines parse (lines.take n) with
    | none => .error (.parseError "Expecting value")
    | some recs => .ok recs

/-- The two-session input of the spec's concrete scenario. -/
def scenarioSessions : List SessionRec :=
  [ { session := 1
      events := [ { aid := 10, ts := 100, type := "clicks" }
                , { aid := 11, ts := 101, type := "orders" } ] }
  , { session := 2
      events := [ { aid := 12, ts := 102, type := "carts" } ] } ]

/-- C1: on the spec's concrete two-session input, the composed pipeline
`build_session_features(flatten_events(sessions))` yields session 1 ↦
(total_events 2, click_cnt 1, cart_cnt 0, order_cnt 1, converted true) and
session 2 ↦ (total_events 1, click_cnt 0, cart_cnt 1, order_cnt 0,
converted false). -/
theorem scenario_pipeline_correct :
    build_session_features (flatten_events scenarioSessions) =
      .ok [ (1, { total_events := 2, click_cnt := 1, cart_cnt := 0, order_cnt := 1,
                  converted := true })
          , (2, { total_events := 1, click_cnt := 0, cart_cnt := 1, order_cnt := 0,
                  converted := false }) ] := by
  rfl

/-- The row built from session record `s` and event `e` by `flatten_events`. -/
def rowOf (s : SessionRec) (e : Event) : EventRow :=
  { session := s.session, aid := e.aid, ts := e.ts, type := e.type }

theorem flatten_events_nil : flatten_events [] = [] := rfl

theorem flatten_events_cons (s : SessionRec) (rest : List SessionRec) :
    flatten_events (s :: rest) = s.events.map (rowOf s) ++ flatten_events rest := rfl

/-- C3: `flatten_events` produces exactly `sum(len(events) per session)` rows,
and the row at offset (events of the first `i` sessions) + `j` is the `j`-th
event of the `i`-th session, carrying that session's identifier and the
event's `aid`, `ts`, `type` unchanged (session-then-event order). -/
theorem flatten_events_spec (sessions : List SessionRec) :
    (flatten_events sessions).length = (sessions.map fun s => s.events.length).sum
    ∧ ∀ (i j : Nat) (s : SessionRec) (e : Event),
        sessions[i]? = some s → s.events[j]? = some e →
        (flatten_events sessions)[((sessions.take i).map fun t => t.events.length).sum + j]? =
          some (rowOf s e) := by
  constructor
  · induction sessions with
    | nil => rfl
    | cons s rest ih =>
      simp [flatten_events_cons, ih]
  · induction sessions with
    | nil => intro i j s e hs; simp at hs
    | cons s0 rest ih =>
      intro i j s e hs he
      cases i with
      | zero =>
        rw [List.getElem?_cons_zero, Option.some_inj] at hs
        subst hs
        obtain ⟨hj, -⟩ := List.getElem?_eq_some.mp he
        rw [flatten_events_cons]
        simp only [List.take_zero, List.map_nil, List.sum_nil, Nat.zero_add]
        rw [List.getElem?_append_left (by simpa using hj)]
        simp [he]
      | succ i =>
        rw [List.getElem?_cons_succ] at hs
        have hrec := ih i j s e hs he
        rw [flatten_events_cons, List.take_succ_cons, List.map_cons, List.sum_cons,
          Nat.add_assoc, List.getElem?_append_right (by simp)]
        simpa using hrec

/-- Witness for C3: the third output row of the scenario (offset of session
index 1, event index 0) is session 2's single `carts` event. -/
theorem flatten_events_spec_witness :
    (flatten_events scenarioSessions)[((scenarioSessions.take 1).map
        fun t => t.events.length).sum + 0]? =
      some (rowOf { session := 2, events := [{ aid := 12, ts := 102, type := "carts" }] }
        { aid := 12, ts := 102, type := "carts" }) :=
  (flatten_events_spec scenarioSessions).2 1 0 _ _ rfl rfl

/-- C4: `build_session_features` raises the empty-input `ValueError` exactly
when the event table has zero rows; a non-empty table never triggers it. -/
theorem build_session_features_empty_guard (event_df : List EventRow) :
    build_session_features event_df =
      .error "event_df is empty. Check input sessions or file path." ↔ event_df = [] := by
  cases event_df <;> simp [build_session_features]

theorem build_ok_iff (rows : List EventRow) (res : List (Int × FeatureRow)) :
    build_session_features rows = .ok res ↔
      rows ≠ [] ∧ res = (sessionKeys rows).map fun sid => (sid, featuresOf rows sid) := by
  cases rows <;> simp [build_session_features, eq_comm]

theorem map_fst_build (rows : List EventRow) :
    ((sessionKeys rows).map fun sid => (sid, featuresOf rows sid)).map Prod.fst =
      sessionKeys rows := by
  rw [List.map_map]
  exact List.map_id _

theorem mem_build_ok {rows : List EventRow} {res : List (Int × FeatureRow)}
    {p : Int × FeatureRow} (hok : build_session_features rows = .ok res) (hp : p ∈ res) :
    p.1 ∈ rows.map EventRow.session ∧ p.2 = featuresOf rows p.1 := by
  obtain ⟨-, rfl⟩ := (build_ok_iff rows res).mp hok
  obtain ⟨sid, hsid, rfl⟩ := List.mem_map.mp hp
  refine ⟨?_, rfl⟩
  have := List.mem_insertionSort (· ≤ ·) |>.mp hsid
  simpa using List.mem_dedup.mp this

/-- C2: on every non-empty event table, `build_session_features` succeeds and
its row indices are exactly the distinct `session` values of the input, each
appearing once, in strictly ascending order. -/
theorem build_session_features_row_set (rows : List EventRow) (hne : rows ≠ []) :
    ∃ res, build_session_features rows = .ok res ∧
      (∀ sid : Int, sid ∈ res.map Prod.fst ↔ sid ∈ rows.map EventRow.session) ∧
      (res.map Prod.fst).Nodup ∧
      List.Sorted (· < ·) (res.map Prod.fst) := by
  refine ⟨(sessionKeys rows).map fun sid => (sid, featuresOf rows sid),
    (build_ok_iff rows _).mpr ⟨hne, rfl⟩, ?_, ?_, ?_⟩
  · intro sid
    rw [map_fst_build]
    unfold sessionKeys
    rw [List.mem_insertionSort]
    exact List.mem_dedup
  · rw [map_fst_build]
    exact (List.perm_insertionSort _ _).nodup_iff.mpr (List.nodup_dedup _)
  · rw [map_fst_build]
    have hsorted : List.Sorted (· ≤ ·) (sessionKeys rows) :=
      List.sorted_insertionSort _ _
    have hnodup : (sessionKeys rows).Nodup :=
      (List.perm_insertionSort _ _).nodup_iff.mpr (List.nodup_dedup _)
    exact hsorted.lt_of_le hnodup

/-- Witness for C2 at the scenario's event table. -/
theorem build_session_features_row_set_witness :
    ∃ res, build_session_features (flatten_events scenarioSessions) = .ok res ∧
      (∀ sid : Int, sid ∈ res.map Prod.fst ↔
        sid ∈ (flatten_events scenarioSessions).map EventRow.session) ∧
      (res.map Prod.fst).Nodup ∧
      List.Sorted (· < ·) (res.map Prod.fst) :=
  build_session_features_row_set (flatten_events scenarioSessions) (by decide)

/-- C7: in every row of a successfully built feature table, `converted` is
`true` exactly when `order_cnt > 0`. -/
theorem converted_iff_order_cnt_pos (rows : List EventRow)
    (res : List (Int × FeatureRow)) (p : Int × FeatureRow)
    (hok : build_session_features rows = .ok res) (hp : p ∈ res) :
    p.2.converted = true ↔ 0 < p.2.order_cnt := by
  obtain ⟨-, hfeat⟩ := mem_build_ok hok hp
  rw [hfeat]
  simp [featuresOf]

/-- The feature row the scenario produces for session 1. -/
def scenarioRow1 : FeatureRow :=
  { total_events := 2, click_cnt := 1, cart_cnt := 0, order_cnt := 1, converted := true }

/-- The feature row the scenario produces for session 2. -/
def scenarioRow2 : FeatureRow :=
  { total_events := 1, click_cnt := 0, cart_cnt := 1, order_cnt := 0, converted := false }

/-- Witness for C7 at session 1 of the scenario (`order_cnt = 1`, converted). -/
theorem converted_iff_order_cnt_pos_witness :
    ((1 : Int), scenarioRow1).2.converted = true ↔ 0 < ((1 : Int), scenarioRow1).2.order_cnt :=
  converted_iff_order_cnt_pos (flatten_events scenarioSessions)
    [(1, scenarioRow1), (2, scenarioRow2)] (1, scenarioRow1) rfl (by decide)

theorem group_counts (g : List EventRow) :
    (g.filter fun r => r.type == "clicks").length
      + (g.filter fun r => r.type == "carts").length
      + (g.filter fun r => r.type == "orders").length ≤ g.length
    ∧ ((∀ r ∈ g, r.type = "clicks" ∨ r.type = "carts" ∨ r.type = "orders") →
        g.length = (g.filter fun r => r.type == "clicks").length
          + (g.filter fun r => r.type == "carts").length
          + (g.filter fun r => r.type == "orders").length) := by
  induction g with
  | nil => simp
  | cons r g ih =>
    obtain ⟨ih1, ih2⟩ := ih
    simp only [List.filter_cons, List.length_cons]
    by_cases h1 : r.type = "clicks"
    · have e2 : (r.type == "carts") = false := by rw [h1]; decide
      have e3 : (r.type == "orders") = false := by rw [h1]; decide
      have e1 : (r.type == "clicks") = true := by rw [h1]; decide
      simp only [e1, e2, e3, Bool.false_eq_true, eq_self_iff_true, if_true, if_false,
        List.length_cons]
      exact ⟨by omega, fun hall => by
        have := ih2 fun x hx => hall x (List.mem_cons_of_mem _ hx); omega⟩
    · by_cases h2 : r.type = "carts"
      · have e1 : (r.type == "clicks") = false := by rw [h2]; decide
        have e3 : (r.type == "orders") = false := by rw [h2]; decide
        have e2 : (r.type == "carts") = true := by rw [h2]; decide
        simp only [e1, e2, e3, Bool.false_eq_true, eq_self_iff_true, if_true, if_false,
          List.length_cons]
        exact ⟨by omega, fun hall => by
          have := ih2 fun x hx => hall x (List.mem_cons_of_mem _ hx); omega⟩
      · by_cases h3 : r.type = "orders"
        · have e1 : (r.type == "clicks") = false := by rw [h3]; decide
          have e2 : (r.type == "carts") = false := by rw [h3]; decide
          have e3 : (r.type == "orders") = true := by rw [h3]; decide
          simp only [e1, e2, e3, Bool.false_eq_true, eq_self_iff_true, if_true, if_false,
            List.length_cons]
          exact ⟨by omega, fun hall => by
            have := ih2 fun x hx => hall x (List.mem_cons_of_mem _ hx); omega⟩
        · have e1 : (r.type == "clicks") = false := by simpa using h1
          have e2 : (r.type == "carts") = false := by simpa using h2
          have e3 : (r.type == "orders") = false := by simpa using h3
          simp only [e1, e2, e3, Bool.false_eq_true, if_false]
          refine ⟨by omega, fun hall => ?_⟩
          rcases hall r (List.mem_cons_self _ _) with h | h | h
          · exact absurd h h1
          · exact absurd h h2
          · exact absurd h h3

/-- C6: every feature row satisfies `click_cnt + cart_cnt + order_cnt ≤
total_events`, with equality whenever every event's `type` lies in
`{"clicks","carts","orders"}`; other `type` values count toward
`total_events` only. -/
theorem total_events_vs_counts (rows : List EventRow) (res : List (Int × FeatureRow))
    (p : Int × FeatureRow) (hok : build_session_features rows = .ok res) (hp : p ∈ res) :
    p.2.click_cnt + p.2.cart_cnt + p.2.order_cnt ≤ p.2.total_events
    ∧ ((∀ r ∈ rows, r.type = "clicks" ∨ r.type = "carts" ∨ r.type = "orders") →
        p.2.total_events = p.2.click_cnt + p.2.cart_cnt + p.2.order_cnt) := by
  obtain ⟨-, hfeat⟩ := mem_build_ok hok hp
  rw [hfeat]
  simp only [featuresOf]
  refine ⟨(group_counts (sessionGroup rows p.1)).1, fun hall => ?_⟩
  exact (group_counts (sessionGroup rows p.1)).2
    fun r hr => hall r (List.mem_of_mem_filter hr)

/-- Witness for C6 at session 1 of the scenario: `1 + 0 + 1 ≤ 2` and,
since every scenario event's type is one of the three, `2 = 1 + 0 + 1`. -/
theorem total_events_vs_counts_witness :
    ((1 : Int), scenarioRow1).2.click_cnt + ((1 : Int), scenarioRow1).2.cart_cnt
        + ((1 : Int), scenarioRow1).2.order_cnt ≤ ((1 : Int), scenarioRow1).2.total_events
    ∧ ((1 : Int), scenarioRow1).2.total_events = ((1 : Int), scenarioRow1).2.click_cnt
        + ((1 : Int), scenarioRow1).2.cart_cnt + ((1 : Int), scenarioRow1).2.order_cnt :=
  ⟨(total_events_vs_counts (flatten_events scenarioSessions)
      [(1, scenarioRow1), (2, scenarioRow2)] (1, scenarioRow1) rfl (by decide)).1,
   (total_events_vs_counts (flatten_events scenarioSessions)
      [(1, scenarioRow1), (2, scenarioRow2)] (1, scenarioRow1) rfl (by decide)).2
      (by decide)⟩

/-- C9: every session appearing in a successfully built feature table has
`total_events ≥ 1` (the output's columns are the fields of `FeatureRow`:
`total_events, click_cnt, cart_cnt, order_cnt, converted`). -/
theorem total_events_pos (rows : List EventRow) (res : List (Int × FeatureRow))
    (p : Int × FeatureRow) (hok : build_session_features rows = .ok res) (hp : p ∈ res) :
    1 ≤ p.2.total_events := by
  obtain ⟨hmem, hfeat⟩ := mem_build_ok hok hp
  rw [hfeat]
  obtain ⟨r, hr, hrs⟩ := List.mem_map.mp hmem
  have hmg : r ∈ sessionGroup rows p.1 := by
    rw [sessionGroup, List.mem_filter]
    exact ⟨hr, by simp [hrs]⟩
  have hlen : 0 < (sessionGroup rows p.1).length :=
    List.length_pos.mpr (List.ne_nil_of_mem hmg)
  simpa [featuresOf] using hlen

/-- Witness for C9 at session 2 of the scenario (`total_events = 1`). -/
theorem total_events_pos_witness : 1 ≤ ((2 : Int), scenarioRow2).2.total_events :=
  total_events_pos (flatten_events scenarioSessions)
    [(1, scenarioRow1), (2, scenarioRow2)] (2, scenarioRow2) rfl (by decide)

theorem parseLines_isSome (parse : String → Option SessionRec) (ls : List String)
    (h : ∀ l ∈ ls, (parse l).isSome) :
    ∃ rs, parseLines parse ls = some rs ∧ rs.length = ls.length
      ∧ rs.map some = ls.map parse := by
  induction ls with
  | nil => exact ⟨[], rfl, rfl, rfl⟩
  | cons l ls ih =>
    obtain ⟨r, hr⟩ := Option.isSome_iff_exists.mp (h l (List.mem_cons_self _ _))
    obtain ⟨rs, hrs, hlen, hmap⟩ := ih fun x hx => h x (List.mem_cons_of_mem _ hx)
    exact ⟨r :: rs, by simp [parseLines, hr, hrs], by simp [hlen], by simp [hmap, hr]⟩

/-- C5: when the first `min(n, L)` lines all parse, `load_sessions` returns
exactly their parses in file order — `min n L` records, never more than `n`
even when the file has more lines. -/
theorem load_sessions_reads_min (lines : List String) (parse : String → Option SessionRec)
    (n : Nat) (h : ∀ l ∈ lines.take n, (parse l).isSome) :
    ∃ recs, load_sessions (some lines) parse n = .ok recs ∧
      recs.length = min n lines.length ∧
      recs.map some = (lines.take n).map parse := by
  obtain ⟨rs, hrs, hlen, hmap⟩ := parseLines_isSome parse (lines.take n) h
  refine ⟨rs, by simp [load_sessions, hrs], ?_, hmap⟩
  rw [hlen, List.length_take]

/-- Witness for C5: a 5-line file read with `n = 2` yields exactly 2 records
in file order. -/
theorem load_sessions_reads_min_witness :
    ∃ recs, load_sessions (some ["a", "b", "c", "d", "e"])
        (fun _ => some { session := 0, events := [] }) 2 = .ok recs ∧
      recs.length = min 2 (["a", "b", "c", "d", "e"] : List String).length ∧
      recs.map some = ((["a", "b", "c", "d", "e"] : List String).take 2).map
        (fun _ => some { session := 0, events := [] }) :=
  load_sessions_reads_min ["a", "b", "c", "d", "e"]
    (fun _ => some { session := 0, events := [] }) 2 (fun _ _ => rfl)

theorem parseLines_eq_none_iff (parse : String → Option SessionRec) (ls : List String) :
    parseLines parse ls = none ↔ ∃ l ∈ ls, parse l = none := by
  induction ls with
  | nil => simp [parseLines]
  | cons l ls ih =>
    cases hl : parse l with
    | none => simp [parseLines, hl]
    | some r => simp [parseLines, hl, ih]

/-- C8: `load_sessions` fails with the parse error exactly when some line of
the first `n` is malformed (aborting with no partial result), and fails with
the IO error when the path is unreadable. -/
theorem load_sessions_error_behavior (parse : String → Option SessionRec) (n : Nat) :
    (∀ lines : List String,
      load_sessions (some lines) parse n = .error (.parseError "Expecting value") ↔
        ∃ l ∈ lines.take n, parse l = none)
    ∧ load_sessions none parse n = .error (.ioError "No such file or directory") := by
  refine ⟨fun lines => ?_, rfl⟩
  rw [← parseLines_eq_none_iff parse (lines.take n)]
  cases h : parseLines parse (lines.take n) <;> simp [load_sessions, h]

/-- C10: `load_sessions` with `n = 0` returns the empty sequence without
consulting the parser, and in general the result depends only on the first
`n` lines — malformed content past the prefix never raises. -/
theorem load_sessions_ignores_tail (parse : String → Option SessionRec)
    (lines : List String) :
    load_sessions (some lines) parse 0 = .ok []
    ∧ ∀ (n : Nat) (other : List String), lines.take n = other.take n →
        load_sessions (some lines) parse n = load_sessions (some other) parse n := by
  exact ⟨rfl, fun n other h => by simp [load_sessions, h]⟩

/-- Witness for C10: with an always-failing parser, `n = 0` still succeeds,
and a malformed second line is invisible when only one line is read. -/
theorem load_sessions_ignores_tail_witness :
    load_sessions (some ["x"]) (fun _ => none) 0 = .ok []
    ∧ load_sessions (some ["x"]) (fun _ => none) 1 =
        load_sessions (some ["x", "y"]) (fun _ => none) 1 :=
  ⟨(load_sessions_ignores_tail (fun _ => none) ["x"]).1,
   (load_sessions_ignores_tail (fun _ => none) ["x"]).2 1 ["x", "y"] rfl⟩

end DataPrep
